import Mathlib

/-!
Verification of the webutil repository's natural-language specification
against its code.

The two components under study are:
* `testutil.py` — `HandlerTest.assert_equals` / `_assert_equals` /
  `assert_multiline_equals`, the recursive structural comparator
  (the spec's `DeepEqualityMatcher.deep_equals`);
* `models.py` — `StringIdModel.put`, `SingleEGModel.enforce_parent`,
  `shared_parent_key`, `__init__`, `get_by_id`, `get_or_insert`
  (the spec's `SharedParentStore`).

Python values that flow through the comparator are embedded as the
inductive type `Value` below; the comparator itself is embedded as
`deepEqN`, a fuel-indexed structurally recursive function (the fuel is
an embedding artifact that makes the definition kernel-computable; the
wrapper `deepEq` supplies enough fuel, and `deepEqN_mono` shows any
sufficient fuel gives the same answer). Failure of an assertion is an
`Except` error carrying the Python `AssertionError` message;
Python `TypeError` (raised by `re.match` on a non-string) is a separate
error constructor, since `_assert_equals` catches only `AssertionError`.
-/

/-- Errors escaping the comparator: Python `AssertionError` with its
message, or `TypeError` (from `re.match` on a non-string argument),
which the `except AssertionError` clauses do not catch. -/
inductive PyErr : Type where
  | assertFail (msg : String) : PyErr
  | typeError : PyErr
  deriving DecidableEq, Repr

/-- A regular expression, standing in for a compiled Python 2 `re`
pattern (`re._pattern_type`). The claims only exercise the anchoring
behavior of `re.match`, so the usual core connectives suffice. -/
inductive Regex : Type where
  | emp : Regex
  | eps : Regex
  | char (c : Char) : Regex
  | anyc : Regex
  | alt (r₁ r₂ : Regex) : Regex
  | cat (r₁ r₂ : Regex) : Regex
  | star (r : Regex) : Regex
  deriving DecidableEq, Repr

/-- Whether a regex accepts the empty string. -/
def Regex.nullable : Regex → Bool
  | .emp => false
  | .eps => true
  | .char _ => false
  | .anyc => false
  | .alt r₁ r₂ => r₁.nullable || r₂.nullable
  | .cat r₁ r₂ => r₁.nullable && r₂.nullable
  | .star _ => true

/-- Brzozowski derivative of a regex by one character. -/
def Regex.deriv : Regex → Char → Regex
  | .emp, _ => .emp
  | .eps, _ => .emp
  | .char c, a => if c = a then .eps else .emp
  | .anyc, _ => .eps
  | .alt r₁ r₂, a => .alt (r₁.deriv a) (r₂.deriv a)
  | .cat r₁ r₂, a =>
      if r₁.nullable then .alt (.cat (r₁.deriv a) r₂) (r₂.deriv a)
      else .cat (r₁.deriv a) r₂
  | .star r, a => .cat (r.deriv a) (.star r)

/-- The regex matches the whole character list. -/
def Regex.fullMatch (r : Regex) : List Char → Bool
  | [] => r.nullable
  | c :: cs => (r.deriv c).fullMatch cs

/-- Semantics of Python 2 `re.match(r, s)` viewed as a Bool: the match
is anchored at the START of the string only — it succeeds as soon as
some (possibly proper) leading piece of `s` matches `r`. -/
def Regex.matchAtStart (r : Regex) : List Char → Bool
  | [] => r.nullable
  | c :: cs => r.nullable || (r.deriv c).matchAtStart cs

/-- A Python value as seen by `HandlerTest._assert_equals`: `None`,
`int`, `str`, `list` (the code treats `tuple` identically, so one
constructor covers both), `dict` with string keys (the only kind the
spec and tests exercise; a dict is embedded as its association list,
keys unique, first binding wins), and a compiled regex pattern. -/
inductive Value : Type where
  | null : Value
  | int (n : Int) : Value
  | str (s : String) : Value
  | list (l : List Value) : Value
  | dict (d : List (String × Value)) : Value
  | pattern (r : Regex) : Value

/-- Python 2 cross-type comparison rank, from CPython 2's
`default_3way_compare`: `None` sorts before everything; numbers sort
before all non-numbers (their type name is treated as the empty
string); remaining types are ordered by type name —
`'_sre.SRE_Pattern' < 'dict' < 'list' < 'str'`. -/
def pyRank : Value → Nat
  | .null => 0
  | .int _ => 1
  | .pattern _ => 2
  | .dict _ => 3
  | .list _ => 4
  | .str _ => 5

mutual

/-- Python 2 `cmp` restricted to the embedded value types, as used by
`sorted` in `_assert_equals`: same-rank values compare within their
type (ints numerically, strings lexicographically, lists elementwise
then by length); different ranks compare by `pyRank`. Two deviations,
both harmless because no claim sorts a list containing dicts or
patterns: CPython 2 compares same-size dicts through their smallest
differing key and compares patterns by object address; here same-size
dicts and patterns compare `.eq`. -/
def pyCmp (a b : Value) : Ordering :=
  if pyRank a = pyRank b then
    match a, b with
    | .null, .null => .eq
    | .int m, .int n => compare m n
    | .str s, .str t => compare s t
    | .list l₁, .list l₂ => pyCmpList l₁ l₂
    | .dict d₁, .dict d₂ => compare d₁.length d₂.length
    | .pattern _, .pattern _ => .eq
    | _, _ => .eq
  else compare (pyRank a) (pyRank b)

/-- Python 2 list comparison: lexicographic, elementwise by `pyCmp`,
shorter list first on a tie. -/
def pyCmpList : List Value → List Value → Ordering
  | [], [] => .eq
  | [], _ :: _ => .lt
  | _ :: _, [] => .gt
  | x :: xs, y :: ys => (pyCmp x y).then (pyCmpList xs ys)

end

mutual

/-- Python `==` restricted to the embedded value types, as used by
`assertEquals` in the final branch of `_assert_equals`. Structural
on the embedding; the list/dict/pattern versus same-type cases are
unreachable from the comparator (earlier `elif` branches capture
them), and dicts with their keys in different orders — equal as
Python dicts — are only distinguished here, where the comparator
can never ask. -/
def pyEq (a b : Value) : Bool :=
  match a, b with
  | .null, .null => true
  | .int m, .int n => m == n
  | .str s, .str t => s == t
  | .list l₁, .list l₂ => pyEqList l₁ l₂
  | .dict d₁, .dict d₂ => pyEqDict d₁ d₂
  | .pattern r₁, .pattern r₂ => r₁ == r₂
  | _, _ => false

/-- Elementwise equality of lists of values. -/
def pyEqList : List Value → List Value → Bool
  | [], [] => true
  | x :: xs, y :: ys => pyEq x y && pyEqList xs ys
  | _, _ => false

/-- Pairwise equality of dict association lists. -/
def pyEqDict : List (String × Value) → List (String × Value) → Bool
  | [], [] => true
  | (k₁, v₁) :: xs, (k₂, v₂) :: ys => k₁ == k₂ && pyEq v₁ v₂ && pyEqDict xs ys
  | _, _ => false

end

/-- Escapes for Python 2 string repr. -/
def pyReprStr : List Char → String
  | [] => ""
  | '\\' :: cs => "\\\\" ++ pyReprStr cs
  | '\'' :: cs => "\\'" ++ pyReprStr cs
  | '\n' :: cs => "\\n" ++ pyReprStr cs
  | '\r' :: cs => "\\r" ++ pyReprStr cs
  | '\t' :: cs => "\\t" ++ pyReprStr cs
  | c :: cs => String.mk [c] ++ pyReprStr cs

mutual

/-- Python 2 `repr`, as used in `assertEquals`'s default failure
message `'%r != %r'`. String escaping is modelled for the characters
the repository's data can contain; a compiled pattern's repr (which
embeds a memory address in CPython) is rendered as a fixed token. -/
def pyRepr : Value → String
  | .null => "None"
  | .int n => toString n
  | .str s => "'" ++ pyReprStr s.data ++ "'"
  | .list l => "[" ++ pyReprList l ++ "]"
  | .dict d => "\x7b" ++ pyReprDict d ++ "\x7d"
  | .pattern _ => "<_sre.SRE_Pattern object>"

/-- Comma-separated reprs of list elements. -/
def pyReprList : List Value → String
  | [] => ""
  | [x] => pyRepr x
  | x :: xs => pyRepr x ++ ", " ++ pyReprList xs

/-- Comma-separated `key: value` reprs of dict entries. -/
def pyReprDict : List (String × Value) → String
  | [] => ""
  | [(k, v)] => "'" ++ k ++ "': " ++ pyRepr v
  | (k, v) :: xs => "'" ++ k ++ "': " ++ pyRepr v ++ ", " ++ pyReprDict xs

end

mutual

/-- Size measure for the embedded values, used as comparator fuel
(the automatically derived `SizeOf` for the nested inductive is not
executable, so the measure is spelled out). -/
def vsize : Value → Nat
  | .null => 1
  | .int _ => 1
  | .str _ => 1
  | .pattern _ => 1
  | .list l => 1 + vsizeList l
  | .dict d => 1 + vsizeDict d

/-- Size of a list of values. -/
def vsizeList : List Value → Nat
  | [] => 1
  | x :: xs => 1 + vsize x + vsizeList xs

/-- Size of a dict association list. -/
def vsizeDict : List (String × Value) → Nat
  | [] => 1
  | (_, v) :: xs => 1 + vsize v + vsizeDict xs

end

/-- Stable insertion of `x` into a list: `x` goes in front of the
first element it does not strictly exceed under `pyCmp`. -/
def pyInsert (x : Value) : List Value → List Value
  | [] => [x]
  | y :: ys => if pyCmp x y = .gt then y :: pyInsert x ys else x :: y :: ys

/-- Python 2 `sorted` on the embedded values: a stable sort by
`pyCmp` (insertion sort; Python's timsort produces the same stably
sorted permutation for a total preorder). -/
def pySort : List Value → List Value
  | [] => []
  | x :: xs => pyInsert x (pySort xs)

/-- Characters stripped by Python 2 `str.strip()` (ASCII whitespace). -/
def isPySpace (c : Char) : Bool :=
  c = ' ' || c = '\t' || c = '\n' || c = '\r' || c = '\x0B' || c = '\x0C'

/-- Python 2 `str.strip()`: drop leading and trailing whitespace. -/
def pyStrip (l : List Char) : List Char :=
  ((l.dropWhile isPySpace).reverse.dropWhile isPySpace).reverse

/-- Python 2 `str.splitlines(True)` on byte strings: split after each
`\n`, `\r` or `\r\n`, keeping the line terminators. `acc` holds the
characters of the current line, reversed. -/
def splitlinesAux : List Char → List Char → List (List Char)
  | [], acc => if acc.isEmpty then [] else [acc.reverse]
  | '\n' :: rest, acc => (acc.reverse ++ ['\n']) :: splitlinesAux rest []
  | '\r' :: '\n' :: rest, acc => (acc.reverse ++ ['\r', '\n']) :: splitlinesAux rest []
  | '\r' :: rest, acc => (acc.reverse ++ ['\r']) :: splitlinesAux rest []
  | c :: rest, acc => splitlinesAux rest (c :: acc)

/-- The `normalize` helper inside `assert_multiline_equals`:
`lines = [l.strip() + '\n' for l in val.splitlines(True)]` followed by
`[l for i, l in enumerate(lines) if i <= 1 or not (lines[i-1] == l == '\n')]`
— note the comprehension consults the ORIGINAL `lines` list, and keeps
the first two lines unconditionally. -/
def normLines (val : String) : List (List Char) :=
  let lines := (splitlinesAux val.data []).map (fun l => pyStrip l ++ ['\n'])
  (List.range lines.length).filterMap fun i =>
    if i ≤ 1 ∨ ¬(lines.getD (i - 1) [] = ['\n'] ∧ lines.getD i [] = ['\n'])
    then some (lines.getD i []) else none

/-- The failure message of `assert_multiline_equals` is
`''.join(difflib.Differ().compare(exp_lines, act_lines))`; the difflib
rendering itself is not modelled — no claim inspects it — so the
embedded comparator reports a fixed message for this branch. -/
def differMsg : String := "<line diff>"

/-- `assert_multiline_equals(expected, actual)`: compare the
normalized line lists, fail with the diff message if they differ. -/
def multilineEq (e a : String) : Except PyErr Unit :=
  if normLines e = normLines a then .ok () else .error (.assertFail differMsg)

/-- Python `dict.get(key)`: the first binding of `key`, or `None`
when absent (a stored `None` value and an absent key are
indistinguishable, exactly as in the Python code). -/
def dget : List (String × Value) → String → Value
  | [], _ => .null
  | (k', v) :: rest, k => if k' = k then v else dget rest k

/-- Stable insertion for strings, ordered by `compare`. -/
def strInsert (x : String) : List String → List String
  | [] => [x]
  | y :: ys => if compare x y = .gt then y :: strInsert x ys else x :: y :: ys

/-- Sort a list of strings. -/
def strSort : List String → List String
  | [] => []
  | x :: xs => strInsert x (strSort xs)

/-- Duplicate removal for the key-set union (a Python `set` holds each
key once). Which duplicate survives is immaterial: the keys are sorted
immediately afterwards. -/
def dedupKeys : List String → List String
  | [] => []
  | k :: ks => if k ∈ dedupKeys ks then dedupKeys ks else k :: dedupKeys ks

/-- `set(expected.keys()) | set(actual.keys())`, the key set the dict
branch iterates over. CPython iterates a set in unspecified hash
order; the embedding fixes the sorted order (which of several failing
keys is reported can depend on the order, but whether the comparison
fails cannot, and every claim exercises at most one failing key). -/
def unionKeys (d₁ d₂ : List (String × Value)) : List String :=
  strSort (dedupKeys (d₁.map Prod.fst ++ d₂.map Prod.fst))

/-- The `except AssertionError` clause of `_assert_equals` re-raises
with `('[%s] ' % key) + message` when the loop variable `key` is set;
a `TypeError` is not caught and propagates unchanged. -/
def addPathErr (k : String) : Except PyErr Unit → Except PyErr Unit
  | .error (.assertFail m) => .error (.assertFail ("[" ++ k ++ "] " ++ m))
  | r => r

/-- The dict branch loop: for each key of the union, recursively
compare `expected.get(key)` and `actual.get(key)`; the first failure
escapes, path-prefixed with that key. -/
def keysLoop (rec : Value → Value → Except PyErr Unit)
    (d₁ d₂ : List (String × Value)) : List String → Except PyErr Unit
  | [] => .ok ()
  | k :: ks =>
      match addPathErr k (rec (dget d₁ k) (dget d₂ k)) with
      | .ok () => keysLoop rec d₁ d₂ ks
      | e => e

/-- The sequence branch loop: `for key, (e, a) in enumerate(zip(...))`,
recursively comparing pairwise; the first failure escapes,
path-prefixed with the index. -/
def pairsLoop (rec : Value → Value → Except PyErr Unit) :
    Nat → List (Value × Value) → Except PyErr Unit
  | _, [] => .ok ()
  | i, (e, a) :: rest =>
      match addPathErr (toString i) (rec e a) with
      | .ok () => pairsLoop rec (i + 1) rest
      | err => err

/-- The failure message of the sequence branch's length check:
`'Different lengths:\n expected %s\n actual %s' % (len(expected), len(actual))`. -/
def lengthsMsg (n₁ n₂ : Nat) : String :=
  "Different lengths:\n expected " ++ toString n₁ ++ "\n actual " ++ toString n₂

/-- `HandlerTest._assert_equals(expected, actual, in_order)`, fuel-indexed.
The branches, in the source's `elif` order:
1. `expected` a compiled pattern: `re.match(expected, actual)` must
   succeed (anchored at the start; `TypeError` on a non-string actual);
2. both dicts: iterate the union of the key sets, recursing into the
   values, an absent key read as `None`;
3. both sequences: sort both by `pyCmp` unless `in_order`, then require
   equal lengths, then recurse pairwise by index, threading `in_order`;
4. both strings with a newline in `expected`: `assert_multiline_equals`;
5. otherwise `assertEquals`, whose failure message is `'%r != %r'`.
The fuel only drives the termination argument; `deepEq` below always
supplies enough, and the fuel-0 answer is never consulted. -/
def deepEqN : Nat → Value → Value → Bool → Except PyErr Unit
  | 0, _, _, _ => .ok ()
  | n + 1, expected, actual, inOrder =>
    match expected, actual with
    | .pattern r, .str s =>
        if r.matchAtStart s.data then .ok ()
        else .error (.assertFail (pyRepr (.pattern r) ++ " doesn't match " ++ s))
    | .pattern _, _ => .error .typeError
    | .dict d₁, .dict d₂ =>
        keysLoop (fun e a => deepEqN n e a inOrder) d₁ d₂ (unionKeys d₁ d₂)
    | .list l₁, .list l₂ =>
        let s₁ := if inOrder then l₁ else pySort l₁
        let s₂ := if inOrder then l₂ else pySort l₂
        if s₁.length = s₂.length then
          pairsLoop (fun e a => deepEqN n e a inOrder) 0 (s₁.zip s₂)
        else .error (.assertFail (lengthsMsg s₁.length s₂.length))
    | .str e, .str a =>
        if e.data.contains '\n' then multilineEq e a
        else if pyEq (.str e) (.str a) then .ok ()
        else .error (.assertFail (pyRepr (.str e) ++ " != " ++ pyRepr (.str a)))
    | e, a =>
        if pyEq e a then .ok ()
        else .error (.assertFail (pyRepr e ++ " != " ++ pyRepr a))

/-- `HandlerTest._assert_equals(expected, actual, in_order)`:
`deepEqN` with sufficient fuel. -/
def deepEq (expected actual : Value) (inOrder : Bool) : Except PyErr Unit :=
  deepEqN (vsize expected + vsize actual) expected actual inOrder

/-!
Embedding of `models.py`. A datastore key is its path, a list of
`(kind, id)` pairs, with ids either strings or integers, exactly as in
`db.Key.from_path` / ndb keys. The datastore itself is passed
explicitly as an association list of key/properties pairs. The
properties payload is a type parameter `α` throughout: nothing in the
repository's logic inspects it.
-/

/-- A key path component id: string or integer. -/
inductive KeyId : Type where
  | str (s : String) : KeyId
  | int (n : Int) : KeyId
  deriving DecidableEq, Repr

/-- A datastore key: its `(kind, id)` path. -/
structure DbKey : Type where
  path : List (String × KeyId)
  deriving DecidableEq, Repr

/-- `SingleEGModel.shared_parent_key()`:
`db.Key.from_path('Parent', cls.kind())` — a synthetic key, never a
stored entity. -/
def sharedParentKey (kind : String) : DbKey :=
  ⟨[("Parent", .str kind)]⟩

/-- The keyword arguments the `enforce_parent` wrapper inspects:
the optional `parent` key, whether `_from_entity` is present, and the
rest of the arguments (the record's properties), opaque here. -/
structure Kwargs (α : Type) : Type where
  parent : Option DbKey
  fromEntity : Bool
  props : α
  deriving Repr

/-- The `enforce_parent` decorator's wrapper: when `_from_entity` is
absent, compute the shared parent key; if `parent` was supplied it
must equal it (`assert`, i.e. `AssertionError` on mismatch), and the
shared parent key is then stored into the kwargs; when `_from_entity`
is present the kwargs pass through untouched. -/
def enforceParent (kind : String) (kw : Kwargs α) : Except PyErr (Kwargs α) :=
  if kw.fromEntity then .ok kw
  else
    let parent := sharedParentKey kind
    match kw.parent with
    | some p =>
        if p = parent then .ok { kw with parent := some parent }
        else .error (.assertFail "Can't override parent in SingleEGModel")
    | none => .ok { kw with parent := some parent }

/-- A constructed `SingleEGModel` entity: the parent key its kwargs
carried, and its properties. -/
structure EGRecord (α : Type) : Type where
  parentKey : Option DbKey
  props : α
  deriving Repr

/-- `SingleEGModel.__init__`: the `enforce_parent` wrapper around the
base constructor, which builds the entity from the kwargs. -/
def egInit (kind : String) (kw : Kwargs α) : Except PyErr (EGRecord α) :=
  (enforceParent kind kw).map fun kw' => ⟨kw'.parent, kw'.props⟩

/-- The datastore: stored entities, keyed by their full key. -/
def Store (α : Type) : Type := List (DbKey × α)

/-- Datastore get by key. -/
def storeGet : Store α → DbKey → Option α
  | [], _ => none
  | (k', v) :: rest, k => if k' = k then some v else storeGet rest k

/-- The full key of an entity of `kind` with id `id` under an optional
parent, as built by `db.Key.from_path(kind, id, parent=parent)`. -/
def keyFromParent (parent : Option DbKey) (kind : String) (id : KeyId) : DbKey :=
  ⟨(match parent with | some p => p.path | none => []) ++ [(kind, id)]⟩

/-- `SingleEGModel.get_by_id`: the `enforce_parent` wrapper around the
base class lookup `db.Model.get_by_id(id, parent=...)`, which reads
the entity at the key built from the (now enforced) parent. -/
def egGetById (kind : String) (id : KeyId) (kw : Kwargs Unit) (s : Store α) :
    Except PyErr (Option α) :=
  (enforceParent kind kw).map fun kw' =>
    storeGet s (keyFromParent kw'.parent kind id)

/-- `SingleEGModel.get_or_insert`: the `enforce_parent` wrapper around
`db.Model.get_or_insert(key_name, **kwargs)`, the platform's
transactional create-if-absent primitive (spec §6): return the entity
stored at the key if present, otherwise create it from the kwargs and
store it. -/
def egGetOrInsert (kind keyName : String) (kw : Kwargs α) (s : Store α) :
    Except PyErr (Store α × (DbKey × α)) :=
  (enforceParent kind kw).map fun kw' =>
    let key := keyFromParent kw'.parent kind (.str keyName)
    match storeGet s key with
    | some props => (s, (key, props))
    | none => ((key, kw'.props) :: s, (key, kw'.props))

/-- A `StringIdModel` instance: its (possibly unset) ndb key and its
properties. -/
structure SIModel (α : Type) : Type where
  key : Option DbKey
  props : α
  deriving Repr

/-- Truthiness of `self.key and self.key.string_id()`: a key is
present and the id of its last `(kind, id)` pair is a non-empty
string (`Key.string_id()` returns `None` for an integer id, and an
empty string is falsy). -/
def hasStringId : Option DbKey → Bool
  | some k =>
      match k.path.getLast? with
      | some (_, .str s) => !(s == "")
      | _ => false
  | none => false

/-- Datastore put: overwrite any entity stored at the key. -/
def storePut (k : DbKey) (v : α) (s : Store α) : Store α :=
  (k, v) :: s.filter (fun p => !(decide (p.1 = k)))

/-- `StringIdModel.put`: assert the string id is provided, then call
the base class `put`. The pair returned is the datastore after the
call and the call's result, so a failed assertion visibly leaves the
datastore untouched. -/
def siPut (m : SIModel α) (s : Store α) : Store α × Except PyErr DbKey :=
  match m.key with
  | some k =>
      if hasStringId (some k) then (storePut k m.props s, .ok k)
      else (s, .error (.assertFail "string id required but not provided"))
  | none => (s, .error (.assertFail "string id required but not provided"))

/-- Membership is preserved by `pyInsert`. -/
theorem mem_pyInsert {x' x : Value} {l : List Value} :
    x' ∈ pyInsert x l ↔ x' = x ∨ x' ∈ l := by
  induction l with
  | nil => simp [pyInsert]
  | cons y ys ih =>
      by_cases h : pyCmp x y = .gt
      · simp only [pyInsert, if_pos h, List.mem_cons, ih]
        tauto
      · simp [pyInsert, if_neg h]

/-- Membership is preserved by `pySort`. -/
theorem mem_pySort {x : Value} {l : List Value} : x ∈ pySort l ↔ x ∈ l := by
  induction l with
  | nil => simp [pySort]
  | cons y ys ih => simp [pySort, mem_pyInsert, ih]

/-!
Fuel adequacy. `deepEqN_mono` shows the comparator's answer does not
depend on the fuel once the fuel covers the combined size of the two
values; the unfolding lemmas `deepEq_dict` / `deepEq_list` then
present `deepEq` as the direct recursive procedure the source writes.
-/

/-- Every embedded value has positive size. -/
theorem one_le_vsize (v : Value) : 1 ≤ vsize v := by
  cases v <;> simp only [vsize] <;> omega

/-- A dict member read by `dget` is no bigger than the dict's contents
(`None` for an absent key is as small as values get). -/
theorem vsize_dget_le (d : List (String × Value)) (k : String) :
    vsize (dget d k) ≤ vsizeDict d := by
  induction d with
  | nil => simp [dget, vsize, vsizeDict]
  | cons p rest ih =>
      obtain ⟨k', v⟩ := p
      by_cases h : k' = k
      · simp only [dget, if_pos h, vsizeDict]
        omega
      · simp only [dget, if_neg h, vsizeDict]
        omega

/-- A list member is strictly smaller than the list's contents. -/
theorem vsize_lt_of_mem {x : Value} {l : List Value} (h : x ∈ l) :
    vsize x < vsizeList l := by
  induction l with
  | nil => cases h
  | cons y ys ih =>
      rcases List.mem_cons.mp h with rfl | h'
      · simp only [vsizeList]; omega
      · have := ih h'; simp only [vsizeList]; omega

/-- Both components of a zip member are members of the zipped lists. -/
theorem zip_mem_mem {x : Value × Value} :
    ∀ {l₁ l₂ : List Value}, x ∈ l₁.zip l₂ → x.1 ∈ l₁ ∧ x.2 ∈ l₂ := by
  intro l₁
  induction l₁ with
  | nil => intro l₂ h; simp [List.zip] at h
  | cons a as ih =>
      intro l₂ h
      cases l₂ with
      | nil => simp [List.zip] at h
      | cons b bs =>
          rcases List.mem_cons.mp h with rfl | h'
          · exact ⟨List.mem_cons_self _ _, List.mem_cons_self _ _⟩
          · obtain ⟨h₁, h₂⟩ := ih h'
            exact ⟨List.mem_cons_of_mem _ h₁, List.mem_cons_of_mem _ h₂⟩

/-- `keysLoop` only consults its recursive comparator on the values it
reads out of the two dicts. -/
theorem keysLoop_congr {f g : Value → Value → Except PyErr Unit}
    {d₁ d₂ : List (String × Value)} :
    ∀ {ks : List String},
      (∀ k ∈ ks, f (dget d₁ k) (dget d₂ k) = g (dget d₁ k) (dget d₂ k)) →
      keysLoop f d₁ d₂ ks = keysLoop g d₁ d₂ ks := by
  intro ks
  induction ks with
  | nil => intro _; rfl
  | cons k ks ih =>
      intro h
      simp only [keysLoop]
      rw [h k (List.mem_cons_self k ks)]
      cases addPathErr k (g (dget d₁ k) (dget d₂ k)) with
      | ok u => cases u; exact ih fun k' hk' => h k' (List.mem_cons_of_mem _ hk')
      | error e => rfl

/-- `pairsLoop` only consults its recursive comparator on the pairs of
the zipped list. -/
theorem pairsLoop_congr {f g : Value → Value → Except PyErr Unit} :
    ∀ {pairs : List (Value × Value)},
      (∀ p ∈ pairs, f p.1 p.2 = g p.1 p.2) →
      ∀ i, pairsLoop f i pairs = pairsLoop g i pairs := by
  intro pairs
  induction pairs with
  | nil => intro _ _; rfl
  | cons p rest ih =>
      intro h i
      obtain ⟨e, a⟩ := p
      simp only [pairsLoop]
      rw [h (e, a) (List.mem_cons_self _ _)]
      cases addPathErr (toString i) (g e a) with
      | ok u => cases u; exact ih (fun p' hp' => h p' (List.mem_cons_of_mem _ hp')) (i + 1)
      | error err => rfl

/-- Definitional unfolding of the dict branch at successor fuel. -/
theorem deepEqN_succ_dict (n : Nat) (d₁ d₂ : List (String × Value)) (io : Bool) :
    deepEqN (n + 1) (.dict d₁) (.dict d₂) io
      = keysLoop (fun e a => deepEqN n e a io) d₁ d₂ (unionKeys d₁ d₂) := rfl

/-- Definitional unfolding of the sequence branch at successor fuel. -/
theorem deepEqN_succ_list (n : Nat) (l₁ l₂ : List Value) (io : Bool) :
    deepEqN (n + 1) (.list l₁) (.list l₂) io
      = (if (if io then l₁ else pySort l₁).length
            = (if io then l₂ else pySort l₂).length then
           pairsLoop (fun e a => deepEqN n e a io) 0
             ((if io then l₁ else pySort l₁).zip (if io then l₂ else pySort l₂))
         else .error (.assertFail
           (lengthsMsg (if io then l₁ else pySort l₁).length
             (if io then l₂ else pySort l₂).length))) := rfl

/-- Every element of the (possibly sorted) comparison list comes from
the original list. -/
theorem mem_of_mem_sortArg {l : List Value} {io : Bool} :
    ∀ x ∈ (if io then l else pySort l), x ∈ l := by
  intro x hx
  cases io with
  | true => simpa using hx
  | false => exact mem_pySort.mp (by simpa using hx)

/-- Fuel irrelevance: any two fuels at least the combined size of the
compared values give the same comparator answer. -/
theorem deepEqN_mono :
    ∀ (k : Nat) (e a : Value) (io : Bool) (n₁ n₂ : Nat),
      vsize e + vsize a ≤ k → vsize e + vsize a ≤ n₁ → vsize e + vsize a ≤ n₂ →
      deepEqN n₁ e a io = deepEqN n₂ e a io := by
  intro k
  induction k using Nat.strong_induction_on with
  | _ k IH =>
    intro e a io n₁ n₂ hk h1 h2
    have he : 1 ≤ vsize e := one_le_vsize e
    have ha : 1 ≤ vsize a := one_le_vsize a
    obtain ⟨m₁, rfl⟩ : ∃ m, n₁ = m + 1 := ⟨n₁ - 1, by omega⟩
    obtain ⟨m₂, rfl⟩ : ∃ m, n₂ = m + 1 := ⟨n₂ - 1, by omega⟩
    cases e with
    | dict d₁ =>
        cases a with
        | dict d₂ =>
            have hsz : vsize (Value.dict d₁) + vsize (Value.dict d₂)
                = vsizeDict d₁ + vsizeDict d₂ + 2 := by simp only [vsize]; omega
            rw [deepEqN_succ_dict, deepEqN_succ_dict]
            apply keysLoop_congr
            intro key _
            have b₁ := vsize_dget_le d₁ key
            have b₂ := vsize_dget_le d₂ key
            exact IH (vsize (dget d₁ key) + vsize (dget d₂ key)) (by omega)
              (dget d₁ key) (dget d₂ key) io m₁ m₂ le_rfl (by omega) (by omega)
        | null => rfl
        | int _ => rfl
        | str _ => rfl
        | list _ => rfl
        | pattern _ => rfl
    | list l₁ =>
        cases a with
        | list l₂ =>
            have hsz : vsize (Value.list l₁) + vsize (Value.list l₂)
                = vsizeList l₁ + vsizeList l₂ + 2 := by simp only [vsize]; omega
            rw [deepEqN_succ_list, deepEqN_succ_list]
            refine if_congr Iff.rfl ?_ rfl
            apply pairsLoop_congr
            intro p hp
            obtain ⟨hp₁, hp₂⟩ := zip_mem_mem hp
            have b₁ := vsize_lt_of_mem (mem_of_mem_sortArg p.1 hp₁)
            have b₂ := vsize_lt_of_mem (mem_of_mem_sortArg p.2 hp₂)
            exact IH (vsize p.1 + vsize p.2) (by omega)
              p.1 p.2 io m₁ m₂ le_rfl (by omega) (by omega)
        | null => rfl
        | int _ => rfl
        | str _ => rfl
        | dict _ => rfl
        | pattern _ => rfl
    | null => cases a <;> rfl
    | int _ => cases a <;> rfl
    | str _ => cases a <;> rfl
    | pattern _ => cases a <;> rfl

/-- `deepEq` equals `deepEqN` at any sufficient fuel. -/
theorem deepEq_fuel {n : Nat} (e a : Value) (io : Bool)
    (h : vsize e + vsize a ≤ n) : deepEq e a io = deepEqN n e a io :=
  deepEqN_mono (vsize e + vsize a) e a io _ _ le_rfl le_rfl h

/-- The dict branch of `_assert_equals`, stated for the fuel-free
wrapper: iterate the union of the key sets, recursing with `deepEq`
itself. -/
theorem deepEq_dict (d₁ d₂ : List (String × Value)) (io : Bool) :
    deepEq (.dict d₁) (.dict d₂) io
      = keysLoop (fun e a => deepEq e a io) d₁ d₂ (unionKeys d₁ d₂) := by
  have hsz : vsize (Value.dict d₁) + vsize (Value.dict d₂)
      = (vsizeDict d₁ + vsizeDict d₂ + 1) + 1 := by simp only [vsize]; omega
  rw [deepEq, hsz, deepEqN_succ_dict]
  apply keysLoop_congr
  intro key _
  have b₁ := vsize_dget_le d₁ key
  have b₂ := vsize_dget_le d₂ key
  exact (deepEqN_mono (vsize (dget d₁ key) + vsize (dget d₂ key))
    (dget d₁ key) (dget d₂ key) io _ _ le_rfl (by omega) le_rfl).symm.symm

/-- The sequence branch of `_assert_equals`, stated for the fuel-free
wrapper: sort both sides by `pyCmp` unless `in_order`, require equal
lengths (failing with the length-mismatch message, no path prefix),
then recurse pairwise by index with `deepEq` itself, `in_order`
threaded through. -/
theorem deepEq_list (l₁ l₂ : List Value) (io : Bool) :
    deepEq (.list l₁) (.list l₂) io
      = (if (if io then l₁ else pySort l₁).length
            = (if io then l₂ else pySort l₂).length then
           pairsLoop (fun e a => deepEq e a io) 0
             ((if io then l₁ else pySort l₁).zip (if io then l₂ else pySort l₂))
         else .error (.assertFail
           (lengthsMsg (if io then l₁ else pySort l₁).length
             (if io then l₂ else pySort l₂).length))) := by
  have hsz : vsize (Value.list l₁) + vsize (Value.list l₂)
      = (vsizeList l₁ + vsizeList l₂ + 1) + 1 := by simp only [vsize]; omega
  rw [deepEq, hsz, deepEqN_succ_list]
  refine if_congr Iff.rfl ?_ rfl
  apply pairsLoop_congr
  intro p hp
  obtain ⟨hp₁, hp₂⟩ := zip_mem_mem hp
  have b₁ := vsize_lt_of_mem (mem_of_mem_sortArg p.1 hp₁)
  have b₂ := vsize_lt_of_mem (mem_of_mem_sortArg p.2 hp₂)
  exact deepEqN_mono (vsize p.1 + vsize p.2) p.1 p.2 io _ _ le_rfl (by omega) le_rfl

/-- The pattern branch of `_assert_equals` for a string actual:
`re.match`, anchored at the start only. -/
theorem deepEq_pattern_str (r : Regex) (s : String) (io : Bool) :
    deepEq (.pattern r) (.str s) io
      = (if r.matchAtStart s.data then .ok ()
         else .error (.assertFail (pyRepr (.pattern r) ++ " doesn't match " ++ s))) :=
  rfl

/-- The string branches of `_assert_equals`: line-oriented comparison
when the expected side contains a newline, plain equality otherwise. -/
theorem deepEq_str_str (e a : String) (io : Bool) :
    deepEq (.str e) (.str a) io
      = (if e.data.contains '\n' then multilineEq e a
         else if pyEq (.str e) (.str a) then .ok ()
         else .error (.assertFail (pyRepr (.str e) ++ " != " ++ pyRepr (.str a)))) :=
  rfl

/-- Evaluation of `enforceParent` on the non-`_from_entity` path when
it succeeds: the kwargs come back with the shared parent key set. -/
theorem enforceParent_ok {α : Type} {kind : String} {kw kw' : Kwargs α}
    (h : kw.fromEntity = false) (hok : enforceParent kind kw = .ok kw') :
    kw' = { kw with parent := some (sharedParentKey kind) } := by
  obtain ⟨pa, fe, pr⟩ := kw
  cases fe with
  | true => cases h
  | false =>
      cases pa with
      | none => exact (Except.ok.inj hok).symm
      | some p =>
          rw [show enforceParent kind (⟨some p, false, pr⟩ : Kwargs α)
              = (if p = sharedParentKey kind then
                   .ok (⟨some (sharedParentKey kind), false, pr⟩ : Kwargs α)
                 else .error (.assertFail "Can't override parent in SingleEGModel"))
              from rfl] at hok
          by_cases hpe : p = sharedParentKey kind
          · rw [if_pos hpe] at hok
            exact (Except.ok.inj hok).symm
          · rw [if_neg hpe] at hok
            cases hok

/-- Evaluation of `enforceParent` on the non-`_from_entity` path when
a differing parent was supplied: the assertion fails. -/
theorem enforceParent_mismatch {α : Type} {kind : String} {kw : Kwargs α}
    {p : DbKey} (h : kw.fromEntity = false) (hp : kw.parent = some p)
    (hne : p ≠ sharedParentKey kind) :
    enforceParent kind kw = .error (.assertFail "Can't override parent in SingleEGModel") := by
  obtain ⟨pa, fe, pr⟩ := kw
  cases fe with
  | true => cases h
  | false =>
      cases hp
      rw [show enforceParent kind (⟨some p, false, pr⟩ : Kwargs α)
          = (if p = sharedParentKey kind then
               .ok (⟨some (sharedParentKey kind), false, pr⟩ : Kwargs α)
             else .error (.assertFail "Can't override parent in SingleEGModel"))
          from rfl]
      rw [if_neg hne]

/-- C1: for every construction or lookup of a `SingleEGModel` record
(`__init__` / `get_by_id` / `get_or_insert`, i.e. the spec's
`create` / `get_by_id` / `get_or_create`), on the caller-facing path
(no `_from_entity`): a supplied parent differing from
`shared_parent_key(kind)` aborts the operation with the
assertion-style `ParentMismatch` failure, and whenever the wrapper
succeeds the kwargs — hence the key used for storage — carry exactly
`shared_parent_key(kind)`. -/
theorem C1_parent_always_shared {α : Type} (kind : String) :
    (∀ kw : Kwargs α, kw.fromEntity = false →
      ((∃ p, kw.parent = some p ∧ p ≠ sharedParentKey kind) →
          enforceParent kind kw
            = .error (.assertFail "Can't override parent in SingleEGModel"))
      ∧ (∀ kw', enforceParent kind kw = .ok kw' →
          kw'.parent = some (sharedParentKey kind)))
    ∧ (∀ kw : Kwargs α, kw.fromEntity = false → ∀ r, egInit kind kw = .ok r →
        r.parentKey = some (sharedParentKey kind))
    ∧ (∀ (keyName : String) (kw : Kwargs α) (s s' : Store α) (rec : DbKey × α),
        kw.fromEntity = false → egGetOrInsert kind keyName kw s = .ok (s', rec) →
        rec.1 = keyFromParent (some (sharedParentKey kind)) kind (.str keyName))
    ∧ (∀ (id : KeyId) (kw : Kwargs Unit) (s : Store α) (p : DbKey),
        kw.fromEntity = false → kw.parent = some p → p ≠ sharedParentKey kind →
        egGetById kind id kw s
          = (.error (.assertFail "Can't override parent in SingleEGModel")
              : Except PyErr (Option α))) := by
  refine ⟨fun kw h => ⟨?_, ?_⟩, ?_, ?_, ?_⟩
  · rintro ⟨p, hp, hne⟩
    exact enforceParent_mismatch h hp hne
  · intro kw' hok
    rw [enforceParent_ok h hok]
  · intro kw h r hr
    unfold egInit at hr
    cases hok : enforceParent kind kw with
    | error e => rw [hok] at hr; cases hr
    | ok kw' =>
        rw [hok] at hr
        have := enforceParent_ok h hok
        subst this
        cases hr
        rfl
  · intro keyName kw s s' rec h hr
    unfold egGetOrInsert at hr
    cases hok : enforceParent kind kw with
    | error e => rw [hok] at hr; cases hr
    | ok kw' =>
        rw [hok] at hr
        have := enforceParent_ok h hok
        subst this
        simp only [Except.map] at hr
        cases hget : storeGet s (keyFromParent (some (sharedParentKey kind)) kind (.str keyName)) with
        | some props => rw [hget] at hr; cases hr; rfl
        | none => rw [hget] at hr; cases hr; rfl
  · intro id kw s p h hp hne
    unfold egGetById
    rw [enforceParent_mismatch h hp hne]
    rfl

/-- C1 witness: at kind `"Kind"`, a kwargs with a wrong explicit
parent aborts, and a kwargs with no parent gets the shared parent key
injected. -/
theorem C1_parent_always_shared_witness :
    ((⟨some ⟨[("Parent", .str "Other")]⟩, false, (0 : Nat)⟩ : Kwargs Nat).fromEntity = false
      ∧ enforceParent "Kind" (⟨some ⟨[("Parent", .str "Other")]⟩, false, (0 : Nat)⟩ : Kwargs Nat)
          = .error (.assertFail "Can't override parent in SingleEGModel"))
    ∧ ((⟨none, false, (0 : Nat)⟩ : Kwargs Nat).fromEntity = false
      ∧ ∀ kw', enforceParent "Kind" (⟨none, false, (0 : Nat)⟩ : Kwargs Nat) = .ok kw' →
          kw'.parent = some (sharedParentKey "Kind")) :=
  ⟨⟨rfl, ((C1_parent_always_shared "Kind").1 _ rfl).1
      ⟨⟨[("Parent", .str "Other")]⟩, rfl, by decide⟩⟩,
   ⟨rfl, ((C1_parent_always_shared "Kind").1 _ rfl).2⟩⟩

/-- C7: persisting a `StringIdModel` without a non-empty string id
fails with the `IdentifierRequired` assertion, synchronously: the
datastore component of the result is exactly the input store. -/
theorem C7_put_requires_string_id {α : Type} (m : SIModel α) (s : Store α)
    (h : hasStringId m.key = false) :
    siPut m s = (s, .error (.assertFail "string id required but not provided")) := by
  cases hk : m.key with
  | none => simp [siPut, hk]
  | some k =>
      rw [hk] at h
      simp [siPut, hk, h]

/-- C7 witness: an integer-id key is rejected and the store `[ ]` is
returned unchanged. -/
theorem C7_put_requires_string_id_witness :
    hasStringId (some ⟨[("Foo", .int 3)]⟩) = false
    ∧ siPut (⟨some ⟨[("Foo", .int 3)]⟩, (7 : Nat)⟩ : SIModel Nat) []
        = ([], .error (.assertFail "string id required but not provided")) :=
  ⟨rfl, C7_put_requires_string_id _ _ rfl⟩

/-- C8: `get_or_insert` is idempotent. If a first call (no explicit
parent, not `_from_entity`) with defaults `d₁` succeeds, a second call
with the same `(kind, id)` and different defaults `d₂` returns the
same store and the same record — it never overwrites — and when the
record did not exist before the first call, the record carries `d₁`,
the defaults of the first successful call. -/
theorem C8_get_or_insert_idempotent {α : Type} (kind keyName : String)
    (d₁ d₂ : α) (s s₁ : Store α) (r₁ : DbKey × α)
    (h : egGetOrInsert kind keyName ⟨none, false, d₁⟩ s = .ok (s₁, r₁)) :
    egGetOrInsert kind keyName ⟨none, false, d₂⟩ s₁ = .ok (s₁, r₁)
    ∧ (storeGet s (keyFromParent (some (sharedParentKey kind)) kind (.str keyName)) = none
        → r₁.2 = d₁) := by
  have hunfold : ∀ (d : α) (s' : Store α),
      egGetOrInsert kind keyName ⟨none, false, d⟩ s'
        = .ok (match storeGet s' (keyFromParent (some (sharedParentKey kind)) kind (.str keyName)) with
               | some props =>
                   (s', (keyFromParent (some (sharedParentKey kind)) kind (.str keyName), props))
               | none =>
                   ((keyFromParent (some (sharedParentKey kind)) kind (.str keyName), d) :: s',
                    (keyFromParent (some (sharedParentKey kind)) kind (.str keyName), d))) :=
    fun d s' => rfl
  rw [hunfold d₁ s] at h
  cases hget : storeGet s (keyFromParent (some (sharedParentKey kind)) kind (.str keyName)) with
  | some p₀ =>
      rw [hget] at h
      obtain ⟨hs, hr⟩ := Prod.mk.injEq _ _ _ _ ▸ Except.ok.inj h
      subst hs
      subst hr
      constructor
      · rw [hunfold d₂ s, hget]
      · intro hnone
        cases hnone
  | none =>
      rw [hget] at h
      obtain ⟨hs, hr⟩ := Prod.mk.injEq _ _ _ _ ▸ Except.ok.inj h
      subst hs
      subst hr
      constructor
      · rw [hunfold d₂]
        have hget₂ : storeGet
            ((keyFromParent (some (sharedParentKey kind)) kind (.str keyName), d₁) :: s)
            (keyFromParent (some (sharedParentKey kind)) kind (.str keyName)) = some d₁ := by
          simp [storeGet]
        rw [hget₂]
      · intro _
        rfl

/-- C8 witness: on the empty store, the first call inserts with
defaults `5`; the second call with defaults `9` returns the first
call's store and record. -/
theorem C8_get_or_insert_idempotent_witness :
    egGetOrInsert "K" "id" (⟨none, false, (5 : Nat)⟩ : Kwargs Nat) []
      = .ok ([(⟨[("Parent", .str "K"), ("K", .str "id")]⟩, 5)],
             (⟨[("Parent", .str "K"), ("K", .str "id")]⟩, 5))
    ∧ egGetOrInsert "K" "id" (⟨none, false, (9 : Nat)⟩ : Kwargs Nat)
        [(⟨[("Parent", .str "K"), ("K", .str "id")]⟩, 5)]
      = .ok ([(⟨[("Parent", .str "K"), ("K", .str "id")]⟩, 5)],
             (⟨[("Parent", .str "K"), ("K", .str "id")]⟩, 5)) :=
  ⟨rfl, (C8_get_or_insert_idempotent "K" "id" 5 9 [] _ _ rfl).1⟩

/-- C10: when `_from_entity` is among the kwargs (the path taken when
an entity is reconstructed from storage), the `enforce_parent` wrapper
neither injects nor checks the parent: the kwargs pass through
unchanged — whatever parent they carry — and construction cannot fail
with the parent-mismatch assertion. -/
theorem C10_from_entity_bypasses_enforcement {α : Type} (kind : String)
    (kw : Kwargs α) (h : kw.fromEntity = true) :
    enforceParent kind kw = .ok kw
    ∧ egInit kind kw = .ok ⟨kw.parent, kw.props⟩ := by
  have he : enforceParent kind kw = .ok kw := by
    unfold enforceParent
    rw [h]
    rfl
  exact ⟨he, by unfold egInit; rw [he]; rfl⟩

/-- C10 witness: a parent different from the shared parent key of
kind `"Kind"` is accepted unchanged on the `_from_entity` path. -/
theorem C10_from_entity_bypasses_enforcement_witness :
    (⟨[("NotParent", .str "X")]⟩ : DbKey) ≠ sharedParentKey "Kind"
    ∧ enforceParent "Kind"
        (⟨some ⟨[("NotParent", .str "X")]⟩, true, (0 : Nat)⟩ : Kwargs Nat)
        = .ok ⟨some ⟨[("NotParent", .str "X")]⟩, true, 0⟩ :=
  ⟨by decide,
   (C10_from_entity_bypasses_enforcement "Kind"
      (⟨some ⟨[("NotParent", .str "X")]⟩, true, (0 : Nat)⟩ : Kwargs Nat) rfl).1⟩

/-- One-step evaluation of the dict-branch loop when the recursive
comparison at the first key fails: the failure comes back prefixed
with that key. -/
theorem keysLoop_cons_error {f : Value → Value → Except PyErr Unit}
    {d₁ d₂ : List (String × Value)} {k : String} {ks : List String} {m : String}
    (h : f (dget d₁ k) (dget d₂ k) = .error (.assertFail m)) :
    keysLoop f d₁ d₂ (k :: ks) = .error (.assertFail ("[" ++ k ++ "] " ++ m)) := by
  rw [show keysLoop f d₁ d₂ (k :: ks)
      = (match addPathErr k (f (dget d₁ k) (dget d₂ k)) with
         | .ok () => keysLoop f d₁ d₂ ks
         | e => e) from rfl, h]
  rfl

/-- One-step evaluation of the sequence-branch loop when the recursive
comparison of the first pair fails: the failure comes back prefixed
with the index. -/
theorem pairsLoop_cons_error {f : Value → Value → Except PyErr Unit}
    {e a : Value} {rest : List (Value × Value)} {m : String} (i : Nat)
    (h : f e a = .error (.assertFail m)) :
    pairsLoop f i ((e, a) :: rest)
      = .error (.assertFail ("[" ++ toString i ++ "] " ++ m)) := by
  rw [show pairsLoop f i ((e, a) :: rest)
      = (match addPathErr (toString i) (f e a) with
         | .ok () => pairsLoop f (i + 1) rest
         | err => err) from rfl, h]
  rfl

/-- The key-set union of two single-binding dicts on the same key. -/
theorem unionKeys_singleton (k : String) (e a : Value) :
    unionKeys [(k, e)] [(k, a)] = [k] := by
  simp [unionKeys, dedupKeys, strSort, strInsert]

/-- Reading the only binding of a singleton dict. -/
theorem dget_singleton (k : String) (v : Value) : dget [(k, v)] k = v := by
  simp [dget]

/-- Reading an absent key gives `None`. -/
theorem dget_not_mem {d : List (String × Value)} {k : String}
    (h : k ∉ d.map Prod.fst) : dget d k = .null := by
  induction d with
  | nil => rfl
  | cons p rest ih =>
      obtain ⟨k', v⟩ := p
      simp only [List.map_cons, List.mem_cons] at h
      push_neg at h
      obtain ⟨h1, h2⟩ := h
      simp only [dget]
      rw [if_neg (fun he => h1 he.symm)]
      exact ih h2

/-- C2 counterexample: the claim's own example — the spec says
`deep_equals("line1\nline2", "line1 \n\nline2\n")` succeeds — in fact
fails: after stripping, the actual value still contains a blank line
between the two text lines (blank-line squeezing removes only
REPEATED blanks), so the normalized line lists differ and the
comparison reports the line diff. -/
theorem C2_multiline_counterexample :
    deepEq (.str "line1\nline2") (.str "line1 \n\nline2\n") false
      = .error (.assertFail differMsg) := rfl

/-- C2 (amended): when the expected string contains a newline, both
strings are split into lines, each line is stripped of leading and
trailing whitespace, and runs of two-or-more consecutive blank lines
are squeezed — except that the first two lines are always kept, even
when both are blank — and exactly the squeezed representations are
compared. `deep_equals("line1\nline2", "line1 \nline2\n")` succeeds,
the claim's original example fails (its actual value keeps one blank
line the expected value lacks), a doubled leading blank line is NOT
squeezed, and an interior run of blanks is. -/
theorem C2_multiline_squeezed_comparison :
    (∀ (e a : String) (io : Bool), e.data.contains '\n' = true →
        deepEq (.str e) (.str a) io
          = (if normLines e = normLines a then .ok ()
             else .error (.assertFail differMsg)))
    ∧ deepEq (.str "line1\nline2") (.str "line1 \nline2\n") false = .ok ()
    ∧ deepEq (.str "line1\nline2") (.str "line1 \n\nline2\n") false
        = .error (.assertFail differMsg)
    ∧ deepEq (.str "\n\nx") (.str "\nx") false = .error (.assertFail differMsg)
    ∧ deepEq (.str "a\n\n\nb") (.str "a\n\nb") false = .ok () := by
  refine ⟨?_, rfl, rfl, rfl, rfl⟩
  intro e a io h
  rw [deepEq_str_str, if_pos h]
  rfl

/-- C2 witness for the amended statement's general part. -/
theorem C2_multiline_squeezed_comparison_witness :
    ("x\ny".data.contains '\n' = true)
    ∧ deepEq (.str "x\ny") (.str "x \ny\n") false
        = (if normLines "x\ny" = normLines "x \ny\n" then .ok ()
           else .error (.assertFail differMsg)) :=
  ⟨rfl, C2_multiline_squeezed_comparison.1 "x\ny" "x \ny\n" false rfl⟩

/-- C3: the sequence branch — both sides are sorted (by Python 2's
value ordering) unless `in_order`; the lengths must then agree
exactly, a mismatch failing at once with the length-mismatch message
and no per-element path; otherwise the elements are compared pairwise
by index with `in_order` threaded through recursively. The spec's
example succeeds order-insensitively and fails in order with the
mismatch path rooted at `b`. -/
theorem C3_sequence_comparison :
    (∀ (l₁ l₂ : List Value) (io : Bool),
        deepEq (.list l₁) (.list l₂) io
          = (if (if io then l₁ else pySort l₁).length
                = (if io then l₂ else pySort l₂).length then
               pairsLoop (fun e a => deepEq e a io) 0
                 ((if io then l₁ else pySort l₁).zip (if io then l₂ else pySort l₂))
             else .error (.assertFail
               (lengthsMsg (if io then l₁ else pySort l₁).length
                 (if io then l₂ else pySort l₂).length))))
    ∧ deepEq (.dict [("a", .int 1), ("b", .list [.int 1, .int 2, .int 3])])
        (.dict [("a", .int 1), ("b", .list [.int 3, .int 2, .int 1])]) false
        = .ok ()
    ∧ deepEq (.dict [("a", .int 1), ("b", .list [.int 1, .int 2, .int 3])])
        (.dict [("a", .int 1), ("b", .list [.int 3, .int 2, .int 1])]) true
        = .error (.assertFail "[b] [0] 1 != 3") :=
  ⟨deepEq_list, rfl, rfl⟩

/-- C4: the dict branch iterates the union of both key sets, recursing
into the values, and a key present on only one side reads as
`None`/absent on the missing side; `deep_equals({"a": 1},
{"a": 1, "b": 2})` fails at path `b` with expected `None`, actual `2`. -/
theorem C4_dict_union_comparison :
    (∀ (d₁ d₂ : List (String × Value)) (io : Bool),
        deepEq (.dict d₁) (.dict d₂) io
          = keysLoop (fun e a => deepEq e a io) d₁ d₂ (unionKeys d₁ d₂))
    ∧ (∀ (d : List (String × Value)) (k : String),
        k ∉ d.map Prod.fst → dget d k = .null)
    ∧ deepEq (.dict [("a", .int 1)]) (.dict [("a", .int 1), ("b", .int 2)]) false
        = .error (.assertFail "[b] None != 2") :=
  ⟨deepEq_dict, fun _ _ h => dget_not_mem h, rfl⟩

/-- C4 witness for the absent-key-reads-as-`None` part. -/
theorem C4_dict_union_comparison_witness :
    ("b" ∉ ([("a", Value.int 1)].map Prod.fst))
    ∧ dget [("a", .int 1)] "b" = .null :=
  ⟨by decide, C4_dict_union_comparison.2.1 [("a", .int 1)] "b" (by decide)⟩

/-- C5 counterexample: the claim requires full-match semantics, but
`re.match` anchors only at the START. Against the pattern `a` and the
actual string `"ab"` the comparator succeeds even though `"ab"` does
not fully match the pattern, refuting the claimed equivalence at this
input. -/
theorem C5_pattern_counterexample :
    deepEq (.pattern (.char 'a')) (.str "ab") false = .ok ()
    ∧ Regex.fullMatch (.char 'a') "ab".data = false :=
  ⟨rfl, rfl⟩

/-- C5 (amended): for a compiled-pattern expected value and a string
actual, the comparison succeeds exactly when the actual MATCHES AT THE
START (Python `re.match` semantics — anchored at the beginning only,
not at the end), and this pattern check precedes every other rule:
even a non-string actual is handed to `re.match` (raising
`TypeError`) rather than compared by any other branch. -/
theorem C5_pattern_match_at_start :
    (∀ (r : Regex) (s : String) (io : Bool),
        deepEq (.pattern r) (.str s) io = .ok () ↔ r.matchAtStart s.data = true)
    ∧ (∀ (r : Regex) (l : List Value) (io : Bool),
        deepEq (.pattern r) (.list l) io = .error .typeError) := by
  constructor
  · intro r s io
    rw [deepEq_pattern_str]
    by_cases h : r.matchAtStart s.data
    · simp [h]
    · simp [h]
  · intro r l io
    have h2 : vsize (Value.pattern r) + vsize (Value.list l) ≤ vsizeList l + 2 := by
      simp only [vsize]
      omega
    rw [deepEq_fuel _ _ _ h2]
    rfl

/-- C6 counterexample: the spec's order-insensitive comparison of the
mixed-type sequences `[1, "x", 3]` and `[3, 1, "x"]` — elements with
no natural common ordering — does not fail with any `NotOrderable`
condition: Python 2's permissive cross-type ordering sorts both sides
and the comparison succeeds. -/
theorem C6_not_orderable_counterexample :
    deepEq (.list [.int 1, .str "x", .int 3])
      (.list [.int 3, .int 1, .str "x"]) false = .ok () := rfl

/-- C6 (amended): order-insensitive comparison never raises a
`NotOrderable` condition — no such condition exists in the code.
Mixed-type elements are sorted by Python 2's permissive cross-type
ordering (`None` before numbers before other types ordered by type
name), after which comparison proceeds: both mixed-type example lists
sort to `[1, 3, "x"]` and compare equal. -/
theorem C6_mixed_types_sort_permissively :
    pySort [.int 1, .str "x", .int 3] = [.int 1, .int 3, .str "x"]
    ∧ pySort [.int 3, .int 1, .str "x"] = [.int 1, .int 3, .str "x"]
    ∧ deepEq (.list [.str "x", .int 1, .int 3])
        (.list [.int 3, .int 1, .str "x"]) false = .ok ()
    ∧ pyCmp (.int 5) (.str "a") = .lt
    ∧ pyCmp (.null) (.int (-10)) = .lt
    ∧ pyCmp (.dict []) (.list []) = .lt :=
  ⟨rfl, rfl, rfl, rfl, rfl, rfl⟩

/-- C9: when a nested comparison at key or index `K` fails with an
assertion message, the enclosing frame re-raises it prefixed with
`[K] `, and the prefixing repeats at each enclosing level, so the
final message lists the path outer-to-inner: shown for a dict frame,
for a sequence frame (any `in_order`), and on a three-level concrete
structure whose failure reads `[x] [0] [y] 1 != 2`. -/
theorem C9_failure_path_accumulation :
    (∀ (k : String) (e a : Value) (io : Bool) (m : String),
        deepEq e a io = .error (.assertFail m) →
        deepEq (.dict [(k, e)]) (.dict [(k, a)]) io
          = .error (.assertFail ("[" ++ k ++ "] " ++ m)))
    ∧ (∀ (e a : Value) (io : Bool) (m : String),
        deepEq e a io = .error (.assertFail m) →
        deepEq (.list [e]) (.list [a]) io
          = .error (.assertFail ("[0] " ++ m)))
    ∧ deepEq (.dict [("x", .list [.dict [("y", .int 1)]])])
        (.dict [("x", .list [.dict [("y", .int 2)]])]) true
        = .error (.assertFail "[x] [0] [y] 1 != 2") := by
  refine ⟨?_, ?_, rfl⟩
  · intro k e a io m h
    rw [deepEq_dict, unionKeys_singleton]
    exact keysLoop_cons_error (by rw [dget_singleton, dget_singleton, h])
  · intro e a io m h
    rw [deepEq_list]
    have hs : ∀ (x : Value), (if io then [x] else pySort [x]) = [x] := by
      intro x
      cases io <;> rfl
    rw [hs e, hs a]
    rw [if_pos (show [e].length = [a].length from rfl)]
    exact pairsLoop_cons_error 0 h

/-- C9 witness: wrapping the failing comparison `1 != 2` one dict
level and one list level deep. -/
theorem C9_failure_path_accumulation_witness :
    deepEq (.int 1) (.int 2) false = .error (.assertFail "1 != 2")
    ∧ deepEq (.dict [("k", .int 1)]) (.dict [("k", .int 2)]) false
        = .error (.assertFail "[k] 1 != 2")
    ∧ deepEq (.list [.int 1]) (.list [.int 2]) false
        = .error (.assertFail "[0] 1 != 2") :=
  ⟨rfl,
   C9_failure_path_accumulation.1 "k" (.int 1) (.int 2) false "1 != 2" rfl,
   C9_failure_path_accumulation.2.1 (.int 1) (.int 2) false "1 != 2" rfl⟩
